import Mathlib

/-!
Verification of the Flamingo coordination/dispatch pipeline.

The embedding translates the server routes module (the only server source
file): the keyword classifier `analyzeMessage`, the canned-handler lookup
`getSpecialistResponse`, the dispatcher `coordinateAIResponse`, and the
message-posting route handler.  The conversation store is modelled as an
append-only list of `Message` records; `storage.createMessage` becomes
`createMessage`, which appends a record and assigns it the next identifier.
JavaScript async/await with no internal try/catch is modelled by explicit
`Except` threading: a rejected awaited call short-circuits the function,
while store writes performed before the rejection persist.
-/

namespace Flamingo

/-- Metadata values appearing in the source: strings and string arrays. -/
inductive MetaVal where
  | str (s : String)
  | arr (l : List String)
deriving DecidableEq, Repr

/-- An opaque key-value metadata payload, as an association list. -/
abbrev Metadata := List (String × MetaVal)

/-- A persisted conversation message.  `id` models the store-assigned
identifier (the position in the append-only log). -/
structure Message where
  id : Nat
  conversationId : String
  role : String
  content : String
  specialist : Option String
  metadata : Option Metadata
deriving DecidableEq, Repr

/-- The fields of a message before the store assigns an identifier
(the argument of `storage.createMessage`). -/
structure MsgData where
  conversationId : String
  role : String
  content : String
  specialist : Option String
  metadata : Option Metadata
deriving DecidableEq, Repr

/-- `storage.createMessage`: append the record to the log, assigning the next
identifier, and return the updated log together with the created message. -/
def createMessage (store : List Message) (d : MsgData) : List Message × Message :=
  let m : Message :=
    { id := store.length
      conversationId := d.conversationId
      role := d.role
      content := d.content
      specialist := d.specialist
      metadata := d.metadata }
  (store ++ [m], m)

/-- ASCII model of JavaScript `String.prototype.toLowerCase`. -/
def toLowerCase (s : String) : String :=
  ⟨s.data.map Char.toLower⟩

/-- Does `pat` occur as a contiguous sublist of the character list? -/
def hasSubstrL (pat : List Char) : List Char → Bool
  | [] => pat.isEmpty
  | c :: rest => pat.isPrefixOf (c :: rest) || hasSubstrL pat rest

/-- JavaScript `String.prototype.includes`: substring membership. -/
def includesStr (s pat : String) : Bool :=
  hasSubstrL pat.data s.data

/-- Replace the first occurrence of `pat` in a character list, as JavaScript
`String.prototype.replace` does with a string pattern. -/
def replFirstL (pat repl : List Char) : List Char → List Char
  | [] => if pat.isEmpty then repl else []
  | c :: rest =>
    if pat.isPrefixOf (c :: rest) then repl ++ (c :: rest).drop pat.length
    else c :: replFirstL pat repl rest

/-- JavaScript `String.prototype.replace` with a plain-string pattern:
only the first occurrence is replaced. -/
def replaceFirst (s pat repl : String) : String :=
  ⟨replFirstL pat.data repl.data s.data⟩

/-- JavaScript `Array.prototype.join`. -/
def joinWith (sep : String) : List String → String
  | [] => ""
  | [x] => x
  | x :: y :: rest => x ++ sep ++ joinWith sep (y :: rest)

/-- Result of `analyzeMessage`: rationale string, selected specialists, and
the per-round context (which carries the original message text). -/
structure AnalysisResult where
  analysis : String
  specialists : List String
  context : String
deriving DecidableEq, Repr

/-- The classifier `analyzeMessage`: lowercase the message, test the four
keyword groups in order, push each matched specialist, fall back to
`code_ai` when nothing matched, and render the rationale template. -/
def analyzeMessage (message : String) : AnalysisResult :=
  let lowerMessage := toLowerCase message
  let specialists : List String := []
  let specialists :=
    if includesStr lowerMessage "code" || includesStr lowerMessage "react" ||
        includesStr lowerMessage "javascript" || includesStr lowerMessage "component" then
      specialists ++ ["code_ai"]
    else specialists
  let specialists :=
    if includesStr lowerMessage "design" || includesStr lowerMessage "ui" ||
        includesStr lowerMessage "ux" || includesStr lowerMessage "style" then
      specialists ++ ["design_ai"]
    else specialists
  let specialists :=
    if includesStr lowerMessage "write" || includesStr lowerMessage "content" ||
        includesStr lowerMessage "documentation" then
      specialists ++ ["writing_ai"]
    else specialists
  let specialists :=
    if includesStr lowerMessage "analyze" || includesStr lowerMessage "performance" ||
        includesStr lowerMessage "optimize" then
      specialists ++ ["analysis_ai"]
    else specialists
  let specialists := if specialists.length = 0 then specialists ++ ["code_ai"] else specialists
  { analysis := "I'll coordinate with our specialists to help you: " ++
      joinWith ", " (specialists.map (fun s => replaceFirst s "_" " "))
    specialists := specialists
    context := message }

/-- A specialist handler's result: content plus metadata. -/
structure SpecialistResponse where
  content : String
  metadata : Metadata
deriving DecidableEq, Repr

/-- The canned `code_ai` entry of the responses object. -/
def codeAiResponse : SpecialistResponse :=
  { content := "I'll help you with the code implementation. Based on your request, I recommend creating a React component with TypeScript for better type safety and maintainability."
    metadata := [("type", .str "code"), ("language", .str "javascript")] }

/-- The canned `design_ai` entry of the responses object. -/
def designAiResponse : SpecialistResponse :=
  { content := "For the UI/UX design, I suggest following modern design principles with proper spacing, typography, and accessibility considerations. The design should be responsive and user-friendly."
    metadata := [("type", .str "design"), ("recommendations", .arr ["responsive", "accessible", "modern"])] }

/-- The canned `writing_ai` entry of the responses object. -/
def writingAiResponse : SpecialistResponse :=
  { content := "I'll help you with clear, concise content that communicates effectively with your users. The writing should be professional yet approachable."
    metadata := [("type", .str "writing"), ("tone", .str "professional")] }

/-- The canned `analysis_ai` entry of the responses object. -/
def analysisAiResponse : SpecialistResponse :=
  { content := "From an analysis perspective, I recommend considering performance implications, scalability, and best practices for long-term maintenance."
    metadata := [("type", .str "analysis"), ("focus", .arr ["performance", "scalability"])] }

/-- The `responses` object literal of `getSpecialistResponse`, as a keyed
lookup: `none` models JavaScript property access yielding `undefined`. -/
def responsesMap (specialist : String) : Option SpecialistResponse :=
  if specialist = "code_ai" then some codeAiResponse
  else if specialist = "design_ai" then some designAiResponse
  else if specialist = "writing_ai" then some writingAiResponse
  else if specialist = "analysis_ai" then some analysisAiResponse
  else none

/-- `getSpecialistResponse`: keyed lookup with the `|| responses.code_ai`
fallback.  The `message` and `context` parameters are accepted and ignored,
as in the source. -/
def getSpecialistResponse (specialist : String) (_message : String) (_context : String) :
    SpecialistResponse :=
  match responsesMap specialist with
  | some r => r
  | none => codeAiResponse

/-- The record appended for one specialist inside the dispatch loop. -/
def specMsgData (conversationId : String) (specialist : String) (resp : SpecialistResponse) :
    MsgData :=
  { conversationId := conversationId
    role := "assistant"
    content := resp.content
    specialist := some specialist
    metadata := some resp.metadata }

/-- The coordinator record appended by `coordinateAIResponse`. -/
def coordMsgData (conversationId : String) (co : AnalysisResult) : MsgData :=
  { conversationId := conversationId
    role := "coordinator"
    content := co.analysis
    specialist := some "coordinator"
    metadata := some [("specialists", .arr co.specialists)] }

/-- The `for ... of` dispatch loop of `coordinateAIResponse`, generalised over
the handler so that a rejected handler invocation (spec §4.3 failure
semantics) can be modelled: on rejection the loop short-circuits with the
raw cause while earlier store appends persist. -/
def dispatchLoop {ε : Type} (h : String → String → String → Except ε SpecialistResponse)
    (specialists : List String) (userMessage context conversationId : String)
    (store : List Message) (responses : List Message) :
    List Message × Except ε (List Message) :=
  match specialists with
  | [] => (store, .ok responses)
  | sp :: rest =>
    match h sp userMessage context with
    | .error e => (store, .error e)
    | .ok resp =>
      let (store1, m) := createMessage store (specMsgData conversationId sp resp)
      dispatchLoop h rest userMessage context conversationId store1 (responses ++ [m])

/-- `coordinateAIResponse` generalised over the handler: run the classifier,
append the coordinator message, then dispatch to each selected specialist in
order.  Returns the final store alongside the outcome. -/
def coordinateWith {ε : Type} (h : String → String → String → Except ε SpecialistResponse)
    (userMessage conversationId : String) (store : List Message) :
    List Message × Except ε (List Message) :=
  let co := analyzeMessage userMessage
  let (store1, cm) := createMessage store (coordMsgData conversationId co)
  dispatchLoop h co.specialists userMessage co.context conversationId store1 [cm]

/-- `coordinateAIResponse` as shipped: the handler is the total
`getSpecialistResponse`, so the round always succeeds; the result is the
final store and the list of appended messages. -/
def coordinateAIResponse (userMessage conversationId : String) (store : List Message) :
    List Message × List Message :=
  match coordinateWith (ε := Empty) (fun sp m c => Except.ok (getSpecialistResponse sp m c))
      userMessage conversationId store with
  | (store1, .ok responses) => (store1, responses)
  | (_, .error e) => e.elim

/-- The HTTP outcome of the message-posting route, as observed by the
caller: status class plus the payload the route serialises. -/
inductive RouteResult where
  | notFound (msg : String)
  | badRequest (msg : String)
  | serverError (msg : String)
  | ok (userMessage : Message) (aiResponses : List Message)
deriving DecidableEq, Repr

/-- The POST messages route handler: ownership check, schema validation,
user-message creation, then coordination; one catch maps a Zod validation
error to 400 and anything else to a generic 500.  `conversation` models
`storage.getConversation`; `parsed` models `insertMessageSchema.parse`
(whose failures are always Zod errors); `isZod` models the
`instanceof z.ZodError` test on an error thrown later. -/
def postMessageRoute {ε : Type} (h : String → String → String → Except ε SpecialistResponse)
    (isZod : ε → Bool) (conversation : Option String) (parsed : Option MsgData)
    (store : List Message) : List Message × RouteResult :=
  match conversation with
  | none => (store, .notFound "Conversation not found")
  | some _ =>
    match parsed with
    | none => (store, .badRequest "Invalid message data")
    | some d =>
      let (store1, userMessage) := createMessage store d
      match coordinateWith h d.content d.conversationId store1 with
      | (store2, .error e) =>
        if isZod e then (store2, .badRequest "Invalid message data")
        else (store2, .serverError "Failed to create message")
      | (store2, .ok aiResponses) => (store2, .ok userMessage aiResponses)

/-! ### Expected-output descriptions used in theorem statements -/

/-- The registry's known specialist identifiers. -/
def knownSpecialists : List String :=
  ["code_ai", "design_ai", "writing_ai", "analysis_ai"]

/-- The classifier's keyword groups, in evaluation order (spec §4.2). -/
def groupKeywords : List (String × List String) :=
  [("code_ai", ["code", "react", "javascript", "component"]),
   ("design_ai", ["design", "ui", "ux", "style"]),
   ("writing_ai", ["write", "content", "documentation"]),
   ("analysis_ai", ["analyze", "performance", "optimize"])]

/-- All classifier keywords. -/
def allKeywords : List String :=
  (groupKeywords.map Prod.snd).flatten

/-- Does any keyword of the group occur in the (lowercased) text? -/
def groupMatches (lower : String) (g : String × List String) : Bool :=
  g.2.any (fun k => includesStr lower k)

/-- The selection described by the spec's classification policy: filter the
groups in evaluation order by substring membership of any keyword in the
lowercased text, with the `code_ai` fallback. -/
def classifySpec (message : String) : List String :=
  let lower := toLowerCase message
  let sel := (groupKeywords.filter (groupMatches lower)).map Prod.fst
  if sel.isEmpty then ["code_ai"] else sel

/-- The specialist messages a successful round appends for the given
selection, starting at store position `base`. -/
def expectedMsgs (sps : List String) (m ctx cid : String) : Nat → List Message
  | base =>
    match sps with
    | [] => []
    | sp :: rest =>
      { id := base
        conversationId := cid
        role := "assistant"
        content := (getSpecialistResponse sp m ctx).content
        specialist := some sp
        metadata := some (getSpecialistResponse sp m ctx).metadata } ::
        expectedMsgs rest m ctx cid (base + 1)

/-- The messages appended by the dispatch loop for a prefix of specialists
whose handler invocations succeed, starting at store position `base`. -/
def okMsgs {ε : Type} (h : String → String → String → Except ε SpecialistResponse)
    (sps : List String) (m ctx cid : String) : Nat → List Message
  | base =>
    match sps with
    | [] => []
    | sp :: rest =>
      match h sp m ctx with
      | .error _ => []
      | .ok resp =>
        { id := base
          conversationId := cid
          role := "assistant"
          content := resp.content
          specialist := some sp
          metadata := some resp.metadata } :: okMsgs h rest m ctx cid (base + 1)

/-- The coordinator message a round appends, at store position `base`. -/
def expectedCoordMsg (m cid : String) (base : Nat) : Message :=
  { id := base
    conversationId := cid
    role := "coordinator"
    content := (analyzeMessage m).analysis
    specialist := some "coordinator"
    metadata := some [("specialists", .arr (analyzeMessage m).specialists)] }

/-! ### Helper lemmas -/

theorem groupMatches_code (lower : String) :
    groupMatches lower ("code_ai", ["code", "react", "javascript", "component"]) =
      (includesStr lower "code" || includesStr lower "react" ||
        includesStr lower "javascript" || includesStr lower "component") := by
  simp [groupMatches, Bool.or_assoc]

theorem groupMatches_design (lower : String) :
    groupMatches lower ("design_ai", ["design", "ui", "ux", "style"]) =
      (includesStr lower "design" || includesStr lower "ui" ||
        includesStr lower "ux" || includesStr lower "style") := by
  simp [groupMatches, Bool.or_assoc]

theorem groupMatches_writing (lower : String) :
    groupMatches lower ("writing_ai", ["write", "content", "documentation"]) =
      (includesStr lower "write" || includesStr lower "content" ||
        includesStr lower "documentation") := by
  simp [groupMatches, Bool.or_assoc]

theorem groupMatches_analysis (lower : String) :
    groupMatches lower ("analysis_ai", ["analyze", "performance", "optimize"]) =
      (includesStr lower "analyze" || includesStr lower "performance" ||
        includesStr lower "optimize") := by
  simp [groupMatches, Bool.or_assoc]

set_option maxHeartbeats 1000000 in
/-- The classifier's selection is the spec-side filter-with-fallback. -/
theorem analyzeMessage_specialists_eq (m : String) :
    (analyzeMessage m).specialists = classifySpec m := by
  unfold analyzeMessage classifySpec
  dsimp only
  rw [← groupMatches_code (toLowerCase m), ← groupMatches_design (toLowerCase m),
    ← groupMatches_writing (toLowerCase m), ← groupMatches_analysis (toLowerCase m)]
  cases h1 : groupMatches (toLowerCase m) ("code_ai", ["code", "react", "javascript", "component"]) <;>
  cases h2 : groupMatches (toLowerCase m) ("design_ai", ["design", "ui", "ux", "style"]) <;>
  cases h3 : groupMatches (toLowerCase m) ("writing_ai", ["write", "content", "documentation"]) <;>
  cases h4 : groupMatches (toLowerCase m) ("analysis_ai", ["analyze", "performance", "optimize"]) <;>
  simp [groupKeywords, h1, h2, h3, h4]

/-- The filtered-group selection is a sublist of the known identifiers. -/
theorem classifySpec_sublist (m : String) :
    (classifySpec m).Sublist knownSpecialists ∨ classifySpec m = ["code_ai"] := by
  unfold classifySpec
  dsimp only
  by_cases h : ((groupKeywords.filter (groupMatches (toLowerCase m))).map Prod.fst).isEmpty
  · right; simp [h]
  · left
    rw [if_neg (by simpa using h)]
    have hsub : (groupKeywords.filter (groupMatches (toLowerCase m))).Sublist groupKeywords :=
      List.filter_sublist _
    have := List.Sublist.map Prod.fst hsub
    simpa [groupKeywords, knownSpecialists] using this

/-- The classifier's selection has no duplicates. -/
theorem classifySpec_nodup (m : String) : (classifySpec m).Nodup := by
  rcases classifySpec_sublist m with h | h
  · exact h.nodup (by decide)
  · rw [h]; decide

/-- Every selected identifier is a known registry identifier. -/
theorem classifySpec_mem (m : String) :
    ∀ s ∈ classifySpec m, s ∈ knownSpecialists := by
  rcases classifySpec_sublist m with h | h
  · exact fun s hs => h.mem hs
  · rw [h]; intro s hs; simp at hs; simp [hs, knownSpecialists]

theorem expectedMsgs_length (m ctx cid : String) :
    ∀ (sps : List String) (base : Nat), (expectedMsgs sps m ctx cid base).length = sps.length := by
  intro sps
  induction sps with
  | nil => intro base; simp [expectedMsgs]
  | cons sp rest ih => intro base; simp [expectedMsgs, ih]

theorem dispatchLoop_ok (m ctx cid : String) :
    ∀ (sps : List String) (store acc : List Message),
      dispatchLoop (ε := Empty) (fun sp a b => Except.ok (getSpecialistResponse sp a b)) sps m ctx cid store acc =
        (store ++ expectedMsgs sps m ctx cid store.length,
         Except.ok (acc ++ expectedMsgs sps m ctx cid store.length)) := by
  intro sps
  induction sps with
  | nil => intro store acc; simp [dispatchLoop, expectedMsgs]
  | cons sp rest ih =>
    intro store acc
    simp only [dispatchLoop, expectedMsgs, createMessage]
    rw [ih]
    simp [specMsgData, List.append_assoc]

theorem coordinateAIResponse_eq (m cid : String) (store : List Message) :
    coordinateAIResponse m cid store =
      (store ++ expectedCoordMsg m cid store.length ::
          expectedMsgs (analyzeMessage m).specialists m m cid (store.length + 1),
       expectedCoordMsg m cid store.length ::
          expectedMsgs (analyzeMessage m).specialists m m cid (store.length + 1)) := by
  unfold coordinateAIResponse coordinateWith
  dsimp only
  rw [show (analyzeMessage m).context = m from rfl]
  rw [dispatchLoop_ok]
  simp [createMessage, coordMsgData, expectedCoordMsg]



theorem createMessage_def (store : List Message) (d : MsgData) :
    createMessage store d =
      (store ++ [⟨store.length, d.conversationId, d.role, d.content, d.specialist, d.metadata⟩],
       ⟨store.length, d.conversationId, d.role, d.content, d.specialist, d.metadata⟩) := rfl

theorem okMsgs_length {ε : Type} (h : String → String → String → Except ε SpecialistResponse)
    (m ctx cid : String) :
    ∀ (pre : List String) (base : Nat), (∀ s ∈ pre, ∃ r, h s m ctx = Except.ok r) →
      (okMsgs h pre m ctx cid base).length = pre.length := by
  intro pre
  induction pre with
  | nil => intro base _; simp [okMsgs]
  | cons s rest ih =>
    intro base hok
    obtain ⟨r, hres⟩ := hok s (by simp)
    simp [okMsgs, hres, ih (base + 1) (fun x hx => hok x (by simp [hx]))]

theorem dispatchLoop_error {ε : Type} (h : String → String → String → Except ε SpecialistResponse)
    (m ctx cid sp : String) (e : ε) (hsp : h sp m ctx = Except.error e) :
    ∀ (pre rest : List String) (store acc : List Message),
      (∀ s ∈ pre, ∃ r, h s m ctx = Except.ok r) →
      dispatchLoop h (pre ++ sp :: rest) m ctx cid store acc =
        (store ++ okMsgs h pre m ctx cid store.length, Except.error e) := by
  intro pre
  induction pre with
  | nil => intro rest store acc _; simp [dispatchLoop, okMsgs, hsp]
  | cons s pre' ih =>
    intro rest store acc hok
    obtain ⟨r, hres⟩ := hok s (by simp)
    simp only [List.cons_append, dispatchLoop, hres, createMessage_def, List.append_eq]
    rw [ih rest _ _ (fun x hx => hok x (by simp [hx]))]
    simp [specMsgData, okMsgs, hres, List.append_assoc]

theorem dispatchLoop_store_prefix {ε : Type}
    (h : String → String → String → Except ε SpecialistResponse) (m ctx cid : String) :
    ∀ (sps : List String) (store acc : List Message),
      ∃ tail, (dispatchLoop h sps m ctx cid store acc).1 = store ++ tail := by
  intro sps
  induction sps with
  | nil => intro store acc; exact ⟨[], by simp [dispatchLoop]⟩
  | cons sp rest ih =>
    intro store acc
    cases hres : h sp m ctx with
    | error e => exact ⟨[], by simp [dispatchLoop, hres]⟩
    | ok r =>
      simp only [dispatchLoop, hres, createMessage_def]
      obtain ⟨tail, ht⟩ := ih _ _
      rw [ht]
      exact ⟨⟨store.length, (specMsgData cid sp r).conversationId, (specMsgData cid sp r).role,
        (specMsgData cid sp r).content, (specMsgData cid sp r).specialist,
        (specMsgData cid sp r).metadata⟩ :: tail, by simp⟩

theorem coordinateWith_store_prefix {ε : Type}
    (h : String → String → String → Except ε SpecialistResponse)
    (m cid : String) (store : List Message) :
    ∃ tail, (coordinateWith h m cid store).1 = store ++ tail := by
  unfold coordinateWith
  dsimp only
  obtain ⟨tail, ht⟩ := dispatchLoop_store_prefix h m (analyzeMessage m).context cid
    (analyzeMessage m).specialists (createMessage store (coordMsgData cid (analyzeMessage m))).1
    [(createMessage store (coordMsgData cid (analyzeMessage m))).2]
  rw [ht]
  refine ⟨(createMessage store (coordMsgData cid (analyzeMessage m))).2 :: tail, ?_⟩
  simp [createMessage_def]

/-! ### Claim theorems -/

/-- C1: on a successful round, `coordinateAIResponse` appends exactly
`1 + N` messages for the `N` classifier-selected specialists: first the
coordinator message (role `coordinator`, specialist literally
`coordinator`, content the rationale, metadata the selected list), then
one message per selected specialist in selection order carrying that
handler's content and metadata; the returned list is exactly the appended
records in that order. -/
theorem C1_coordinate_appends (m cid : String) (store : List Message) :
    coordinateAIResponse m cid store =
      (store ++ expectedCoordMsg m cid store.length ::
          expectedMsgs (analyzeMessage m).specialists m m cid (store.length + 1),
       expectedCoordMsg m cid store.length ::
          expectedMsgs (analyzeMessage m).specialists m m cid (store.length + 1)) ∧
    (coordinateAIResponse m cid store).2.length =
      1 + (analyzeMessage m).specialists.length := by
  refine ⟨coordinateAIResponse_eq m cid store, ?_⟩
  rw [coordinateAIResponse_eq m cid store]
  simp [expectedMsgs_length, Nat.add_comm]

/-- C2: the classifier lowercases the text and selects by substring
membership against the four keyword groups in their fixed evaluation
order, each specialist at most once, in evaluation order; on the given
documentation-and-performance message it selects exactly
`[writing_ai, analysis_ai]`. -/
theorem C2_classifier_policy :
    (∀ m : String, (analyzeMessage m).specialists = classifySpec m) ∧
    (analyzeMessage "Can you help me write documentation and also analyze performance?").specialists =
      ["writing_ai", "analysis_ai"] :=
  ⟨analyzeMessage_specialists_eq, by decide⟩

/-- C6: for every input, the selection has no duplicates and every element
is a known registry identifier. -/
theorem C6_selection_invariant (m : String) :
    (analyzeMessage m).specialists.Nodup ∧
    ∀ s ∈ (analyzeMessage m).specialists, s ∈ knownSpecialists := by
  rw [analyzeMessage_specialists_eq]
  exact ⟨classifySpec_nodup m, classifySpec_mem m⟩

/-- C7: the rationale is the fixed template followed by the selection with
underscores replaced by spaces, comma-joined; on the react/ui message the
selection is `[code_ai, design_ai]` and the appended coordinator record's
content is the expected sentence. -/
theorem C7_rationale_template :
    (∀ m : String, (analyzeMessage m).analysis =
      "I'll coordinate with our specialists to help you: " ++
        joinWith ", " ((analyzeMessage m).specialists.map (fun s => replaceFirst s "_" " "))) ∧
    (analyzeMessage "I need a react component for my ui design").specialists =
      ["code_ai", "design_ai"] ∧
    (coordinateAIResponse "I need a react component for my ui design" "c1" []).2.head?.map
        Message.content =
      some "I'll coordinate with our specialists to help you: code ai, design ai" :=
  ⟨fun _ => rfl, by decide, by decide⟩

/-- C9: each handler's result is a fixed constant: two invocations of the
same specialist with any message texts and contexts return identical
content and metadata. -/
theorem C9_handlers_constant (sp m1 c1 m2 c2 : String) :
    getSpecialistResponse sp m1 c1 = getSpecialistResponse sp m2 c2 := rfl

/-- C5: any input containing none of the defined keywords (after
lowercasing) yields exactly the singleton fallback selection `[code_ai]`. -/
theorem C5_fallback (m : String)
    (hnone : ∀ k ∈ allKeywords, includesStr (toLowerCase m) k = false) :
    (analyzeMessage m).specialists = ["code_ai"] := by
  unfold analyzeMessage
  dsimp only
  rw [hnone "code" (by decide), hnone "react" (by decide), hnone "javascript" (by decide),
    hnone "component" (by decide), hnone "design" (by decide), hnone "ui" (by decide),
    hnone "ux" (by decide), hnone "style" (by decide), hnone "write" (by decide),
    hnone "content" (by decide), hnone "documentation" (by decide),
    hnone "analyze" (by decide), hnone "performance" (by decide),
    hnone "optimize" (by decide)]
  simp

/-- Witness for C5 at the empty string and a whitespace-only string. -/
theorem C5_fallback_witness :
    (analyzeMessage "").specialists = ["code_ai"] ∧
    (analyzeMessage "   ").specialists = ["code_ai"] :=
  ⟨C5_fallback "" (by decide), C5_fallback "   " (by decide)⟩

/-- C8: for any key outside the four known identifiers, the handler lookup
silently returns the `code_ai` response instead of failing. -/
theorem C8_silent_fallback (sp m c : String) (hn : sp ∉ knownSpecialists) :
    getSpecialistResponse sp m c = codeAiResponse := by
  simp only [knownSpecialists, List.mem_cons, List.mem_singleton, not_or] at hn
  unfold getSpecialistResponse responsesMap
  simp [hn.1, hn.2.1, hn.2.2.1, hn.2.2.2]

/-- Witness for C8 at the key `ghost_ai`. -/
theorem C8_silent_fallback_witness :
    "ghost_ai" ∉ knownSpecialists ∧
    getSpecialistResponse "ghost_ai" "msg" "ctx" = codeAiResponse :=
  ⟨by decide, C8_silent_fallback "ghost_ai" "msg" "ctx" (by decide)⟩

/-- C3 (bug evidence): at the unregistered identifier `unknown_ai` the
lookup succeeds with the `code_ai` canned response and a coordination
round built on it appends a message attributed to `unknown_ai`; no
`UnknownSpecialist` failure or registry validation exists in the code. -/
theorem C3_no_unknown_specialist_failure :
    getSpecialistResponse "unknown_ai" "hello" "hello" = codeAiResponse ∧
    (dispatchLoop (ε := Empty) (fun sp a b => Except.ok (getSpecialistResponse sp a b))
        ["unknown_ai"] "hello" "hello" "c1" [] []).2 =
      Except.ok [⟨0, "c1", "assistant", codeAiResponse.content, some "unknown_ai",
        some codeAiResponse.metadata⟩] := by
  exact ⟨rfl, rfl⟩

theorem okMsgs_mem_specialist {ε : Type}
    (h : String → String → String → Except ε SpecialistResponse) (m ctx cid : String) :
    ∀ (pre : List String) (base : Nat) (msg : Message), msg ∈ okMsgs h pre m ctx cid base →
      ∃ s ∈ pre, msg.specialist = some s := by
  intro pre
  induction pre with
  | nil => intro base msg hmsg; simp [okMsgs] at hmsg
  | cons s rest ih =>
    intro base msg hmsg
    simp only [okMsgs] at hmsg
    cases hres : h s m ctx with
    | error e => rw [hres] at hmsg; simp at hmsg
    | ok r =>
      rw [hres] at hmsg
      rcases List.mem_cons.mp hmsg with rfl | hin
      · exact ⟨s, by simp, rfl⟩
      · obtain ⟨s', hs', hspec⟩ := ih (base + 1) msg hin
        exact ⟨s', by simp [hs'], hspec⟩

/-- C4 counterexample: two rounds whose failing specialists differ
(`code_ai` vs `design_ai`, the sole selected specialist of each round)
fail with the identical raw cause `boom`; the propagated error is the
handler's cause unchanged, so it is not a
`SpecialistDispatchFailed{identifier, cause}` value and does not identify
which specialists succeeded or failed. -/
theorem C4_counterexample :
    (coordinateWith (fun _ _ _ => Except.error "boom") "code" "c1" []).2 =
      Except.error "boom" ∧
    (coordinateWith (fun _ _ _ => Except.error "boom") "design" "c1" []).2 =
      Except.error "boom" ∧
    (analyzeMessage "code").specialists = ["code_ai"] ∧
    (analyzeMessage "design").specialists = ["design_ai"] :=
  ⟨rfl, rfl, by decide, by decide⟩

/-- C4 (amended): when the handler of a selected specialist rejects, the
round fails by propagating the handler's raw cause unchanged; that
specialist's message is not appended, while the coordinator message and
the messages of the specialists dispatched before it remain appended
(no rollback). -/
theorem C4_amended_failure_semantics {ε : Type}
    (h : String → String → String → Except ε SpecialistResponse)
    (m cid : String) (store : List Message) (pre rest : List String) (sp : String) (e : ε)
    (hsel : (analyzeMessage m).specialists = pre ++ sp :: rest)
    (hok : ∀ s ∈ pre, ∃ r, h s m m = Except.ok r)
    (herr : h sp m m = Except.error e) :
    coordinateWith h m cid store =
      (store ++ expectedCoordMsg m cid store.length ::
          okMsgs h pre m m cid (store.length + 1),
       Except.error e) ∧
    (okMsgs h pre m m cid (store.length + 1)).length = pre.length ∧
    ∀ msg ∈ expectedCoordMsg m cid store.length ::
        okMsgs h pre m m cid (store.length + 1),
      msg.specialist ≠ some sp := by
  have hspmem : sp ∈ (analyzeMessage m).specialists := by rw [hsel]; simp
  have hknown : sp ∈ knownSpecialists :=
    classifySpec_mem m sp (by rw [← analyzeMessage_specialists_eq]; exact hspmem)
  have hnd : (analyzeMessage m).specialists.Nodup := by
    rw [analyzeMessage_specialists_eq]; exact classifySpec_nodup m
  have hnotpre : sp ∉ pre := by
    rw [hsel] at hnd
    intro hc
    exact (List.nodup_append.mp hnd).2.2 hc (by simp)
  refine ⟨?_, okMsgs_length h m m cid pre (store.length + 1) hok, ?_⟩
  · unfold coordinateWith
    dsimp only
    rw [show (analyzeMessage m).context = m from rfl, hsel]
    rw [dispatchLoop_error h m m cid sp e herr pre rest _ _ hok]
    simp [createMessage_def, coordMsgData, expectedCoordMsg]
  · intro msg hmsg
    rcases List.mem_cons.mp hmsg with rfl | hin
    · simp only [expectedCoordMsg]
      intro hx
      rw [Option.some_inj] at hx
      rw [← hx] at hknown
      revert hknown
      decide
    · obtain ⟨s', hs', hspec⟩ := okMsgs_mem_specialist h m m cid pre (store.length + 1) msg hin
      rw [hspec]
      intro hx
      rw [Option.some_inj] at hx
      exact hnotpre (hx ▸ hs')

/-- Witness for the amended C4: on `write and analyze` the selection is
`[writing_ai, analysis_ai]`; the handler succeeds on `writing_ai` and
rejects on `analysis_ai` with cause `boom`, and the round propagates
exactly that cause while the coordinator and `writing_ai` messages stay
appended. -/
theorem C4_amended_failure_semantics_witness :
    coordinateWith
        (fun s _ _ => if s = "analysis_ai" then Except.error "boom"
          else Except.ok (getSpecialistResponse s "x" "y"))
        "write and analyze" "c1" [] =
      ([] ++ expectedCoordMsg "write and analyze" "c1" 0 ::
          okMsgs
            (fun s _ _ => if s = "analysis_ai" then Except.error "boom"
              else Except.ok (getSpecialistResponse s "x" "y"))
            ["writing_ai"] "write and analyze" "write and analyze" "c1" 1,
       Except.error "boom") :=
  (C4_amended_failure_semantics
    (fun s _ _ => if s = "analysis_ai" then Except.error "boom"
      else Except.ok (getSpecialistResponse s "x" "y"))
    "write and analyze" "c1" [] ["writing_ai"] [] "analysis_ai" "boom"
    (by decide)
    (fun s hs => by
      rw [List.mem_singleton] at hs
      subst hs
      exact ⟨writingAiResponse, rfl⟩)
    rfl).1

/-- C10: the route persists the triggering user message before
coordination; when coordination rejects with a non-validation error the
caller receives only the generic 500 payload while the user message (and
everything coordination appended before failing) remains in the store. -/
theorem C10_user_message_persists {ε : Type}
    (h : String → String → String → Except ε SpecialistResponse) (isZod : ε → Bool)
    (conv : String) (d : MsgData) (store : List Message) (e : ε)
    (herr : (coordinateWith h d.content d.conversationId (createMessage store d).1).2 =
      Except.error e)
    (hz : isZod e = false) :
    postMessageRoute h isZod (some conv) (some d) store =
      ((coordinateWith h d.content d.conversationId (createMessage store d).1).1,
        RouteResult.serverError "Failed to create message") ∧
    (createMessage store d).2 ∈
      (coordinateWith h d.content d.conversationId (createMessage store d).1).1 := by
  constructor
  · unfold postMessageRoute
    dsimp only
    rcases hres : coordinateWith h d.content d.conversationId (createMessage store d).1 with ⟨s2, ex⟩
    rw [hres] at herr
    dsimp at herr
    subst herr
    simp [hz]
  · obtain ⟨tail, ht⟩ :=
      coordinateWith_store_prefix h d.content d.conversationId (createMessage store d).1
    rw [ht]
    simp [createMessage_def]

/-- Witness for C10: a handler that always rejects; the user message with
content `hi` is persisted and the route answers with the generic 500
payload. -/
theorem C10_user_message_persists_witness :
    postMessageRoute (fun _ _ _ => (Except.error () : Except Unit SpecialistResponse))
        (fun _ => false) (some "c1") (some ⟨"c1", "user", "hi", none, none⟩) [] =
      ((coordinateWith (fun _ _ _ => (Except.error () : Except Unit SpecialistResponse))
          "hi" "c1" (createMessage [] ⟨"c1", "user", "hi", none, none⟩).1).1,
        RouteResult.serverError "Failed to create message") ∧
    (createMessage [] ⟨"c1", "user", "hi", none, none⟩).2 ∈
      (coordinateWith (fun _ _ _ => (Except.error () : Except Unit SpecialistResponse))
        "hi" "c1" (createMessage [] ⟨"c1", "user", "hi", none, none⟩).1).1 :=
  C10_user_message_persists (fun _ _ _ => Except.error ()) (fun _ => false) "c1"
    ⟨"c1", "user", "hi", none, none⟩ [] () rfl rfl

end Flamingo
